import Mathlib

/-
Verification development for the destam-db-core storage layer.

The embedding models:
  * the per-collection validator (src/validation.js: `validator`, `validateData`),
  * the document-session orchestrator `ODB` and `ODB.remove` (src/odb.js,
    destructured-argument revision),
  * the driver registry initialisation `initODB`,
  * the mutation watcher installed on every live object, and
  * the filesystem driver's `query` / `transformQuery` / `update`
    (src/drivers/fs.js).

JavaScript objects are modelled as association lists of string keys, with
JS property assignment (overwrite in place, append otherwise) and first-match
lookup; primitive values as a small inductive with decidable (strict, `===`)
equality; thrown exceptions as `Except` errors; asynchronous driver and
predicate results as their awaited values.  Driver backends are oracles: the
responses a driver produces during one orchestrator call are inputs of the
model, and the orchestrator's outgoing driver calls are recorded in a trace.
-/

namespace DestamDB

/-- A primitive JSON value as stored in documents and queries.  JS strict
equality (`===`) on these primitives is decidable equality: values of
different runtime types are never strictly equal. -/
inductive JVal where
  | str (s : String)
  | num (n : Int)
  | bool (b : Bool)
  | null
deriving DecidableEq, Repr

/-- A JavaScript object: an association list from string keys to primitive
values.  Key order is insertion order, keys are unique when built through
`assocSet`. -/
abbrev Obj := List (String × JVal)

/-- JS property read `o[k]`: the value stored under `k`, or `none` when the
key is absent (JS `undefined`). -/
def assocGet {α : Type} (o : List (String × α)) (k : String) : Option α :=
  match o with
  | [] => none
  | (k', v) :: rest => if k' = k then some v else assocGet rest k

/-- JS property assignment `o[k] = v`: overwrite the existing entry in place
when the key is present, append a new entry otherwise. -/
def assocSet {α : Type} (o : List (String × α)) (k : String) (v : α) :
    List (String × α) :=
  if o.any (fun p => p.1 = k) then
    o.map (fun p => if p.1 = k then (k, v) else p)
  else
    o ++ [(k, v)]

/-- Build a JS object from a list of entries by repeated assignment
(`Object.fromEntries` / a `for` loop of assignments): later entries with a
duplicate key overwrite earlier ones. -/
def buildObj (l : Obj) : Obj :=
  l.foldl (fun o p => assocSet o p.1 p.2) []

/-- One field rule of a validation schema: `{ validate, message }` from
src/validation.js.  The predicate's awaited result is a boolean. -/
structure FieldRule where
  validate : JVal → Bool
  message : String

/-- A registered schema: the declared fields, in declaration order, each with
its rule (`validator(collection, schema)` stores exactly this object). -/
abbrev Schema := List (String × FieldRule)

/-- The errors `validateData` can throw: the two `Validation Error` forms
thrown explicitly, plus the `TypeError` JS raises when the `in` operator is
applied to `null`/`undefined` data. -/
inductive VErr where
  | missingField (f : String) (c : String)
  | predFailed (msg : String) (v : JVal)
  | typeErrorNullData
deriving DecidableEq, Repr

/-- The field loop of `validateData` (src/validation.js lines 24-33): for each
declared field in order, first the membership test `field in data` (which
throws a TypeError when `data` is `null`), then the missing-field check, then
the awaited predicate. -/
def validateFields (c : String) (d : Option Obj) : Schema → Except VErr Unit
  | [] => .ok ()
  | (f, r) :: rest =>
    match d with
    | none => .error .typeErrorNullData
    | some dd =>
      match assocGet dd f with
      | none => .error (.missingField f c)
      | some v =>
        if r.validate v then validateFields c d rest
        else .error (.predFailed r.message v)

/-- `validateData(collection, data)` from src/validation.js: look the schema
up in the `collectionValidators` registry (modelled as a function from
collection name to optional schema); no registered schema is a no-op success,
otherwise run the field loop. -/
def validateData (reg : String → Option Schema) (c : String) (d : Option Obj) :
    Except VErr Unit :=
  match reg c with
  | none => .ok ()
  | some s => validateFields c d s

/-- A field is satisfied by a data object when it is present and its value
passes the field's predicate. -/
def fieldOk (d : Obj) (fr : String × FieldRule) : Prop :=
  ∃ v, assocGet d fr.1 = some v ∧ fr.2.validate v = true

instance (d : Obj) (fr : String × FieldRule) : Decidable (fieldOk d fr) := by
  unfold fieldOk
  exact inferInstance

/-! ## The document-session orchestrator (`ODB`) -/

/-- The shape of the `state_tree` object a driver hands back, as probed by the
orchestrator: truthiness of its `OBJECT_TYPE`, `id` and `vals` fields, whether
`parse(JSON.stringify(state_tree))` yields an `OObject`, and the data the
parsed live object carries. -/
structure StateTree where
  hasObjectType : Bool
  hasTreeId : Bool
  hasVals : Bool
  parsesToOObject : Bool
  payload : Obj
deriving DecidableEq, Repr

/-- What a driver's `create`/`query` resolves to, as the orchestrator sees it:
a falsy value (`false`/`null`/`undefined`), a truthy non-object, or an object
whose `state_tree` and `id` properties may be absent. -/
inductive RawDoc where
  | falsy
  | primitive
  | doc (state_tree : Option StateTree) (id : Option String)
deriving DecidableEq, Repr

/-- JS truthiness test `!doc` on a driver response. -/
def rawFalsy : RawDoc → Bool
  | .falsy => true
  | _ => false

/-- `result.id` read off a driver response: the stored id when present,
JS `undefined` (here `none`) otherwise; property access on a truthy
primitive also yields `undefined`. -/
def rawId : RawDoc → Option String
  | .doc _ i => i
  | _ => none

/-- JS truthiness of `doc.id`: absent/`undefined` and the empty string are
falsy. -/
def idFalsy : Option String → Bool
  | none => true
  | some s => s == ""

/-- A driver call issued by the orchestrator, with the arguments that decide
the claims: `create` receives the state document built from the initial
value, `query` the (transformed) query, `update` a document id and the
current live state, `remove` a document id. -/
inductive DCall where
  | createC (value : Option Obj)
  | queryC (q : Obj)
  | updateC (id : String) (st : Obj)
  | removeC (id : Option String)
deriving DecidableEq, Repr

/-- The behaviour of the resolved driver during one orchestrator call:
the optional `transformQuery` capability, and the responses its `create`
and `query` resolve to. -/
structure DriverSpec where
  hasTransform : Bool
  transform : Obj → Obj
  createResp : RawDoc
  queryResp : RawDoc

/-- `if (driver.transformQuery && query) query = driver.transformQuery(...)`:
apply the capability when the driver declares it (the query object itself is
always truthy here). -/
def applyTransform (drv : DriverSpec) (q : Obj) : Obj :=
  if drv.hasTransform then drv.transform q else q

/-- The error the orchestrator throws past its caller when a driver returns a
malformed document. -/
inductive OdbErr where
  | malformed (msg : String)
deriving DecidableEq, Repr

/-- What a successful orchestrator call evaluates to: the live bound object
(with the document id it is bound to) or the literal `false`. -/
inductive OdbResult where
  | bound (id : String) (payload : Obj)
  | fals
deriving DecidableEq, Repr

/-- The create-or-lookup branch of `ODB` (src/odb.js): empty transformed
query creates from the initial value; a non-empty query is attempted, a miss
with a supplied value creates from it (create-on-miss), a miss without a
value returns early (`none` here).  The second component records the driver
calls made, in order. -/
def odbFetch (drv : DriverSpec) (tq : Obj) (value : Option Obj) :
    Option RawDoc × List DCall :=
  if tq.isEmpty then
    (some drv.createResp, [.createC value])
  else if rawFalsy drv.queryResp then
    match value with
    | none => (none, [.queryC tq])
    | some v => (some drv.createResp, [.queryC tq, .createC (some v)])
  else
    (some drv.queryResp, [.queryC tq])

/-- The malformed-document checks of `ODB`, in source order: doc missing or
not an object; `state_tree` missing; `id` missing; `state_tree` lacking
`OBJECT_TYPE`/`id`/`vals`; parsed state not an `OObject`.  On success,
the state tree and the bound id are handed on. -/
def checkDoc : RawDoc → Except OdbErr (StateTree × String)
  | .falsy =>
    .error (.malformed "Driver returned invalid doc: Doc is missing or not an object.")
  | .primitive =>
    .error (.malformed "Driver returned invalid doc: Doc is missing or not an object.")
  | .doc none _ =>
    .error (.malformed "Driver returned invalid doc: 'state_tree' property is missing.")
  | .doc (some t) i =>
    if idFalsy i then
      .error (.malformed "Driver returned invalid doc: 'id' property is missing.")
    else if !(t.hasObjectType && t.hasTreeId && t.hasVals) then
      .error (.malformed "Driver returned invalid doc: 'state_tree' is missing one or more required fields (OBJECT_TYPE, id, vals).")
    else if !t.parsesToOObject then
      .error (.malformed "Driver returned invalid doc: 'state_tree' is not converting to a valid OArray or OObject.")
    else
      .ok (t, i.getD "")

/-- A driver response that lacks a usable `state_tree` or an `id`: it is not
an object at all, or one of the shape checks on `state_tree`/`id` fails. -/
def docLacksShape : RawDoc → Bool
  | .falsy => true
  | .primitive => true
  | .doc none _ => true
  | .doc (some t) i =>
    idFalsy i || !(t.hasObjectType && t.hasTreeId && t.hasVals) || !t.parsesToOObject

/-- The orchestrator `ODB({driver, collection, query, value})` (src/odb.js):
validate the initial value (a thrown validation error is logged and becomes
`false`, before any driver call), transform the query, run the
create-or-lookup branch, check the returned document's shape (a malformed
document is thrown, not caught), and bind the parsed live object to the
returned id.  The result is paired with the trace of driver calls made. -/
def ODBrun (drv : DriverSpec) (reg : String → Option Schema) (c : String)
    (q : Obj) (value : Option Obj) : Except OdbErr OdbResult × List DCall :=
  match validateData reg c value with
  | .error _ => (.ok .fals, [])
  | .ok _ =>
    let tq := applyTransform drv q
    match odbFetch drv tq value with
    | (none, tr) => (.ok .fals, tr)
    | (some raw, tr) =>
      match checkDoc raw with
      | .error e => (.error e, tr)
      | .ok (t, i) => (.ok (.bound i t.payload), tr)

/-! ## The mutation watcher -/

/-- Observable outcome of one watcher invocation: the driver calls made, the
backend's persisted state afterwards, the in-memory live state afterwards,
and whether an error was logged by the catch handler. -/
structure WatcherOut where
  calls : List DCall
  backend : Option Obj
  live : Obj
  logged : Bool
deriving DecidableEq, Repr

/-- Whether an awaited driver `update` resolved rather than threw. -/
def updOk : Except String Unit → Bool
  | .ok _ => true
  | .error _ => false

/-- The watcher callback `state.observer.watch(async () => {...})` installed
by `ODB` on every mutation event (src/odb.js): re-validate the entire current
state, then `driver.update(collection, doc.id, state)`; any throw from either
step is caught and logged, the live object is never touched and no exception
escapes.  `updResp` is what the driver's `update` resolves to, `backend` the
last successfully persisted state. -/
def watcherStepOut (reg : String → Option Schema) (c : String)
    (updResp : Except String Unit) (boundId : String) (cur : Obj)
    (backend : Option Obj) : WatcherOut :=
  match validateData reg c (some cur) with
  | .error _ =>
    { calls := [], backend := backend, live := cur, logged := true }
  | .ok _ =>
    match updResp with
    | .error _ =>
      { calls := [.updateC boundId cur], backend := backend, live := cur,
        logged := true }
    | .ok _ =>
      { calls := [.updateC boundId cur], backend := some cur, live := cur,
        logged := false }

/-- The watcher callback as awaited by the caller: the catch handler swallows
every throw, so the async task always resolves, to the outcome above. -/
def watcherStep (reg : String → Option Schema) (c : String)
    (updResp : Except String Unit) (boundId : String) (cur : Obj)
    (backend : Option Obj) : Except String WatcherOut :=
  .ok (watcherStepOut reg c updResp boundId cur backend)

/-- One observed mutation: the live object's new current state and what the
driver's `update` resolves to for it. -/
structure Mutation where
  newState : Obj
  updResp : Except String Unit

/-- The driver calls issued over a whole sequence of mutation events on one
bound object, threading the backend state through. -/
def watcherTrace (reg : String → Option Schema) (c : String) (boundId : String) :
    List Mutation → Option Obj → List DCall
  | [], _ => []
  | m :: rest, backend =>
    let out := watcherStepOut reg c m.updResp boundId m.newState backend
    out.calls ++ watcherTrace reg c boundId rest out.backend

/-! ## The filesystem driver (src/drivers/fs.js) -/

/-- A document file as stored by the fs driver: the persisted `state_tree`
(carried opaquely here), the flattened `state_json` projection (absent when
the stored file lacks it), and the id recorded inside the document. -/
structure FsDoc where
  state_tree : JVal
  state_json : Option Obj
  id : String
deriving DecidableEq, Repr

/-- A collection directory: document files keyed by file-name stem, in
directory listing order. -/
abbrev FsStore := List (String × FsDoc)

/-- The state document `createStateDoc(state)` that the orchestrator passes
to a driver's `create`/`update`: a `state_tree` and a `state_json`
projection, no id yet. -/
structure StateDocIn where
  state_tree : JVal
  state_json : Option Obj
deriving DecidableEq, Repr

/-- What the fs driver's `update` evaluates to: `false` when no document file
with that id exists, otherwise the newly written document. -/
inductive FsUpdateRes where
  | falseRes
  | updated (d : FsDoc)
deriving DecidableEq, Repr

/-- fs `update({collection, id, stateDoc})`: read the document file by id;
if absent return `false`; otherwise set `stateDoc.id = doc.id` (the existing
document's id) and overwrite the file.  Returns the new store and result. -/
def fsUpdate (store : FsStore) (id : String) (sd : StateDocIn) :
    FsStore × FsUpdateRes :=
  match assocGet store id with
  | none => (store, .falseRes)
  | some old =>
    let nd : FsDoc :=
      { state_tree := sd.state_tree, state_json := sd.state_json, id := old.id }
    (assocSet store id nd, .updated nd)

/-- The characters of the literal `"state_json."` prepended by
`transformQuery`. -/
def sjKeyHead : List Char := "state_json.".data

/-- JS `key.startsWith(pat)`, spelled out on the character lists. -/
def strHasPre : List Char → List Char → Bool
  | [], _ => true
  | _ :: _, [] => false
  | a :: p, b :: s => a == b && strHasPre p s

/-- The per-key step building `simplifiedQuery` in fs `query`: when the key
starts with `"state_json."`, `key.replace('state_json.', '')` removes that
first occurrence — which, the pattern being a prefix, is exactly dropping the
leading 11 characters; other keys pass through. -/
def stripSJ (k : String) : String :=
  if strHasPre sjKeyHead k.data then String.mk (k.data.drop 11) else k

/-- fs `transformQuery({query})`: rebuild the query with every key prefixed
by the template literal to target the `state_json` projection. -/
def fsTransformQuery (q : Obj) : Obj :=
  q.map (fun kv => (String.mk (sjKeyHead ++ kv.1.data), kv.2))

/-- The match test fs `query` runs on one stored document: every entry of
the simplified query must find a strictly-equal value in the document's
`state_json` (a document without a `state_json` fails every entry; an empty
query matches vacuously). -/
def fsDocMatches (sq : Obj) (d : FsDoc) : Bool :=
  sq.all (fun kv =>
    match d.state_json with
    | none => false
    | some sj => assocGet sj kv.1 == some kv.2)

/-- fs `query({collection, query})`: strip the `state_json.` prefix off every
query key into `simplifiedQuery`, scan the documents in directory listing
order, and return the first match's `{state_tree, id}` (or `false`, here
`none`). -/
def fsQuery (docs : List FsDoc) (q : Obj) : Option (JVal × String) :=
  (docs.find?
      (fsDocMatches (buildObj (q.map (fun kv => (stripSJ kv.1, kv.2)))))).map
    (fun d => (d.state_tree, d.id))

/-! ## `ODB.remove` -/

/-- The driver behaviour relevant to one `ODB.remove` call: the optional
query transform, what `query` resolves to or throws, and what `remove`
resolves to or throws. -/
structure RemoveDriver where
  hasTransform : Bool
  transform : Obj → Obj
  queryResp : Except String RawDoc
  removeResp : Except String Bool

/-- A JS call observed from outside: a returned value or a thrown error. -/
inductive JsOutcome (α : Type) where
  | ret (a : α)
  | thrown (msg : String)
deriving DecidableEq, Repr

/-- `ODB.remove({driver, collection, query})` (src/odb.js): resolve the
driver from the registry — an unknown name leaves `driver` undefined, so the
capability probe `driver.transformQuery` throws a TypeError before the `try`
block; otherwise transform the query, and inside the `try` look the document
up and delete it by its id, any throw being caught, logged and turned into
`false`. -/
def removeTransform (drv : RemoveDriver) (q : Obj) : Obj :=
  if drv.hasTransform then drv.transform q else q

/-- The body of `ODB.remove`, see the comment above `removeTransform`. -/
def ODBremove (reg : String → Option RemoveDriver) (name : String) (q : Obj) :
    JsOutcome Bool × List DCall :=
  match reg name with
  | none =>
    (.thrown "TypeError: Cannot read properties of undefined (reading 'transformQuery')", [])
  | some drv =>
    let tq := removeTransform drv q
    match drv.queryResp with
    | .error _ => (.ret false, [.queryC tq])
    | .ok raw =>
      if rawFalsy raw then (.ret false, [.queryC tq])
      else
        match drv.removeResp with
        | .error _ => (.ret false, [.queryC tq, .removeC (rawId raw)])
        | .ok b => (.ret b, [.queryC tq, .removeC (rawId raw)])

/-! ## Driver registry initialisation (`initODB`) -/

/-- The environment a driver declares itself for in `driversList`. -/
inductive DrvEnv where
  | server
  | client
deriving DecidableEq, Repr

/-- One entry of `driversList`: a driver name and its declared environment. -/
structure DriverDecl where
  name : String
  env : DrvEnv
deriving DecidableEq, Repr

/-- The gating at the top of the `initODB` loop: a client driver is skipped
on the server unless test mode is on, and a server driver is skipped on the
client. -/
def attemptedDrv (isClient test : Bool) (d : DriverDecl) : Bool :=
  !(!isClient && d.env == .client && !test) && !(isClient && d.env == .server)

/-- `initODB(props)` (src/odb.js): iterate the declared drivers; for each one
that passes the environment gate, attempt to load and construct it inside a
per-driver `try`, recording `true` on success and `false` on any throw in the
`initStatus` object; skipped drivers get no entry and a failure never stops
the loop.  `outcome` is the oracle saying whether a given driver's module
load and construction succeeds. -/
def initODBrun (isClient test : Bool) (outcome : String → Bool)
    (decls : List DriverDecl) : List (String × Bool) :=
  decls.foldl
    (fun st d =>
      if attemptedDrv isClient test d then assocSet st d.name (outcome d.name)
      else st)
    []

/-! ## Helper lemmas -/

theorem ODBrun_trace_eq (drv : DriverSpec) (reg : String → Option Schema)
    (c : String) (q : Obj) (value : Option Obj)
    (h : validateData reg c value = .ok ()) :
    (ODBrun drv reg c q value).2 = (odbFetch drv (applyTransform drv q) value).2 := by
  unfold ODBrun
  rw [h]
  rcases hf : odbFetch drv (applyTransform drv q) value with ⟨od, tr⟩
  cases od with
  | none => simp [hf]
  | some raw =>
    cases hc : checkDoc raw with
    | error e => simp [hf, hc]
    | ok p =>
      obtain ⟨t, i⟩ := p
      simp [hf, hc]

theorem checkDoc_error_of_lacksShape (raw : RawDoc) (h : docLacksShape raw = true) :
    ∃ msg, checkDoc raw = .error (.malformed msg) := by
  cases raw with
  | falsy => exact ⟨_, rfl⟩
  | primitive => exact ⟨_, rfl⟩
  | doc st i =>
    cases st with
    | none => exact ⟨_, rfl⟩
    | some t =>
      simp only [docLacksShape, Bool.or_eq_true] at h
      simp only [checkDoc]
      rcases h with (h | h) | h
      · rw [if_pos h]
        exact ⟨_, rfl⟩
      · by_cases hid : idFalsy i = true
        · rw [if_pos hid]; exact ⟨_, rfl⟩
        · rw [if_neg hid, if_pos h]; exact ⟨_, rfl⟩
      · by_cases hid : idFalsy i = true
        · rw [if_pos hid]; exact ⟨_, rfl⟩
        · rw [if_neg hid]
          by_cases hsh : (!(t.hasObjectType && t.hasTreeId && t.hasVals)) = true
          · rw [if_pos hsh]; exact ⟨_, rfl⟩
          · rw [if_neg hsh, if_pos h]; exact ⟨_, rfl⟩

/-! ## Claim theorems -/

/-- C2: for every orchestrator call, the initial value is validated against
the collection's schema before any driver method is invoked; if the validator
throws, the call returns `false` and the driver-call trace is empty — no
`create`, `query` or `update` happens in that invocation. -/
theorem odb_validate_before_driver (drv : DriverSpec)
    (reg : String → Option Schema) (c : String) (q : Obj) (value : Option Obj)
    (e : VErr) (h : validateData reg c value = .error e) :
    ODBrun drv reg c q value = (.ok .fals, []) := by
  unfold ODBrun
  rw [h]

/-- C10: for a collection whose registered schema declares at least one
field, calling the orchestrator without an initial value (the parameter
defaults to `null`) returns `false` for every query and driver, with no
driver call made: the first field-membership test runs `field in null`,
which throws, and the catch converts it to `false`. -/
theorem odb_null_value_schema_lookup_false (drv : DriverSpec)
    (reg : String → Option Schema) (c : String) (q : Obj) (f : String)
    (r : FieldRule) (rest : Schema) (h : reg c = some ((f, r) :: rest)) :
    ODBrun drv reg c q none = (.ok .fals, []) := by
  have hv : validateData reg c none = .error .typeErrorNullData := by
    simp only [validateData, h]
    rfl
  unfold ODBrun
  rw [hv]

/-- C1: after the query is (possibly) transformed — when it has no keys the
document is created from the initial value via `driver.create`; when it is
non-empty `driver.query` is attempted, a miss with a supplied value falls
back to `driver.create` on that value, and a miss without a value returns
`false` with `driver.create` never called. -/
theorem odb_create_lookup_branching (drv : DriverSpec)
    (reg : String → Option Schema) (c : String) (q : Obj) (value : Option Obj)
    (hval : validateData reg c value = .ok ()) :
    ((applyTransform drv q).isEmpty = true →
      (ODBrun drv reg c q value).2 = [.createC value]) ∧
    ((applyTransform drv q).isEmpty = false → rawFalsy drv.queryResp = true →
      value = none →
      ODBrun drv reg c q value = (.ok .fals, [.queryC (applyTransform drv q)])) ∧
    (∀ v, (applyTransform drv q).isEmpty = false → rawFalsy drv.queryResp = true →
      value = some v →
      (ODBrun drv reg c q value).2
        = [.queryC (applyTransform drv q), .createC (some v)]) ∧
    ((applyTransform drv q).isEmpty = false → rawFalsy drv.queryResp = false →
      (ODBrun drv reg c q value).2 = [.queryC (applyTransform drv q)]) := by
  refine ⟨?_, ?_, ?_, ?_⟩
  · intro hemp
    rw [ODBrun_trace_eq drv reg c q value hval]
    unfold odbFetch
    rw [if_pos hemp]
  · intro hemp hmiss hnone
    subst hnone
    unfold ODBrun
    rw [hval]
    show (match odbFetch drv (applyTransform drv q) none with
      | (none, tr) => ((.ok .fals : Except OdbErr OdbResult), tr)
      | (some raw, tr) =>
        match checkDoc raw with
        | .error e => (.error e, tr)
        | .ok (t, i) => (.ok (.bound i t.payload), tr)) = _
    unfold odbFetch
    rw [if_neg (by simp [hemp]), if_pos hmiss]
  · intro v hemp hmiss hsome
    subst hsome
    rw [ODBrun_trace_eq drv reg c q (some v) hval]
    unfold odbFetch
    rw [if_neg (by simp [hemp]), if_pos hmiss]
  · intro hemp hfound
    rw [ODBrun_trace_eq drv reg c q value hval]
    unfold odbFetch
    rw [if_neg (by simp [hemp]), if_neg (by simp [hfound])]

/-- C3: whenever the driver's returned document lacks a usable `state_tree`
or an `id`, the orchestrator call ends in a thrown `MalformedDocument`-style
error — an `Except.error`, not the `false` result — which propagates to the
caller. -/
theorem odb_malformed_doc_throws (drv : DriverSpec)
    (reg : String → Option Schema) (c : String) (q : Obj) (value : Option Obj)
    (raw : RawDoc) (tr : List DCall)
    (hval : validateData reg c value = .ok ())
    (hfetch : odbFetch drv (applyTransform drv q) value = (some raw, tr))
    (hbad : docLacksShape raw = true) :
    ∃ msg, (ODBrun drv reg c q value).1 = .error (.malformed msg) := by
  obtain ⟨msg, hmsg⟩ := checkDoc_error_of_lacksShape raw hbad
  refine ⟨msg, ?_⟩
  unfold ODBrun
  rw [hval]
  show (match odbFetch drv (applyTransform drv q) value with
    | (none, tr) => ((.ok .fals : Except OdbErr OdbResult), tr)
    | (some raw, tr) =>
      match checkDoc raw with
      | .error e => (.error e, tr)
      | .ok (t, i) => (.ok (.bound i t.payload), tr)).1 = _
  rw [hfetch]
  simp [hmsg]

/-- C4: on every mutation event the watcher first re-validates the object's
entire current state; on success it calls `driver.update` with the bound
document id and the current state (the backend advancing to that state only
if the update resolves); on a validation failure or a thrown update it logs,
makes no write (the backend keeps the last successfully persisted state) and
the in-memory object keeps its new value; and the callback never lets an
exception escape. -/
theorem odb_watcher_step_behaviour (reg : String → Option Schema) (c : String)
    (upd : Except String Unit) (id : String) (cur : Obj) (backend : Option Obj) :
    (validateData reg c (some cur) = .ok () →
      watcherStep reg c upd id cur backend =
        .ok { calls := [.updateC id cur],
              backend := if updOk upd then some cur else backend,
              live := cur, logged := !updOk upd }) ∧
    ((∃ e, validateData reg c (some cur) = .error e) →
      watcherStep reg c upd id cur backend =
        .ok { calls := [], backend := backend, live := cur, logged := true }) ∧
    (∃ out, watcherStep reg c upd id cur backend = .ok out) := by
  refine ⟨?_, ?_, ⟨_, rfl⟩⟩
  · intro h
    unfold watcherStep watcherStepOut
    rw [h]
    cases upd <;> rfl
  · rintro ⟨e, h⟩
    unfold watcherStep watcherStepOut
    rw [h]

/-- C5 counterexample: with an empty driver registry, `ODB.remove` on an
unknown driver name throws the TypeError raised by probing `transformQuery`
on `undefined` — it does not return `false` — so removal does propagate an
exception for this input, against the claim's "never ... for any input
(including an unknown driver name)". -/
theorem odb_remove_unknown_driver_throws :
    (ODBremove (fun _ => none) "nodriver" []).1 =
      .thrown "TypeError: Cannot read properties of undefined (reading 'transformQuery')" :=
  rfl

/-- C5 amended: when the driver name resolves, `ODB.remove` returns the
boolean result of `driver.remove` on the found document's id, returns `false`
on a lookup miss, converts any exception thrown by the lookup or the delete
call into `false`, and never propagates an exception; an unknown driver name,
however, throws before the `try` block and that error propagates. -/
theorem odb_remove_behaviour (reg : String → Option RemoveDriver)
    (name : String) (q : Obj) (drv : RemoveDriver) (h : reg name = some drv) :
    (∀ e, drv.queryResp = .error e →
      ODBremove reg name q = (.ret false, [.queryC (removeTransform drv q)])) ∧
    (∀ raw, drv.queryResp = .ok raw → rawFalsy raw = true →
      ODBremove reg name q = (.ret false, [.queryC (removeTransform drv q)])) ∧
    (∀ raw e, drv.queryResp = .ok raw → rawFalsy raw = false →
      drv.removeResp = .error e →
      ODBremove reg name q =
        (.ret false, [.queryC (removeTransform drv q), .removeC (rawId raw)])) ∧
    (∀ raw b, drv.queryResp = .ok raw → rawFalsy raw = false →
      drv.removeResp = .ok b →
      ODBremove reg name q =
        (.ret b, [.queryC (removeTransform drv q), .removeC (rawId raw)])) ∧
    (∃ b, (ODBremove reg name q).1 = .ret b) := by
  have base : ODBremove reg name q =
      (match drv.queryResp with
       | .error _ => (.ret false, [.queryC (removeTransform drv q)])
       | .ok raw =>
         if rawFalsy raw then (.ret false, [.queryC (removeTransform drv q)])
         else
           match drv.removeResp with
           | .error _ =>
             (.ret false, [.queryC (removeTransform drv q), .removeC (rawId raw)])
           | .ok b =>
             (.ret b, [.queryC (removeTransform drv q), .removeC (rawId raw)])) := by
    unfold ODBremove
    rw [h]
  refine ⟨?_, ?_, ?_, ?_, ?_⟩
  · intro e hq
    rw [base, hq]
  · intro raw hq hf
    rw [base, hq]
    simp [hf]
  · intro raw e hq hf hr
    rw [base, hq]
    simp [hf, hr]
  · intro raw b hq hf hr
    rw [base, hq]
    simp [hf, hr]
  · rw [base]
    cases hq : drv.queryResp with
    | error e => exact ⟨false, rfl⟩
    | ok raw =>
      by_cases hf : rawFalsy raw = true
      · simp [hf]
      · cases hr : drv.removeResp with
        | error e => simp [hf, hr]
        | ok b => exact ⟨b, by simp [hf, hr]⟩

theorem assocSet_of_key_new {α : Type} (o : List (String × α)) (k : String)
    (v : α) (h : ∀ p ∈ o, p.1 ≠ k) : assocSet o k v = o ++ [(k, v)] := by
  unfold assocSet
  rw [if_neg]
  simp only [List.any_eq_true, decide_eq_true_eq, not_exists]
  intro p hp
  exact h p hp.1 hp.2

theorem initODB_foldl_eq (isClient test : Bool) (outcome : String → Bool)
    (decls : List DriverDecl) :
    ∀ acc : List (String × Bool),
      (∀ p ∈ acc, ∀ d ∈ decls, p.1 ≠ d.name) →
      (decls.map DriverDecl.name).Nodup →
      decls.foldl
          (fun st d =>
            if attemptedDrv isClient test d then assocSet st d.name (outcome d.name)
            else st) acc
        = acc ++ (decls.filter (attemptedDrv isClient test)).map
            (fun d => (d.name, outcome d.name)) := by
  induction decls with
  | nil =>
    intro acc _ _
    simp
  | cons d rest ih =>
    intro acc hdisj hnd
    simp only [List.map_cons, List.nodup_cons, List.mem_map] at hnd
    obtain ⟨hdn, hnd'⟩ := hnd
    simp only [List.foldl_cons, List.filter_cons]
    by_cases ha : attemptedDrv isClient test d = true
    · rw [if_pos ha,
        assocSet_of_key_new acc d.name _ (fun p hp => hdisj p hp d (by simp)),
        ih (acc ++ [(d.name, outcome d.name)]) ?_ ?_]
      · simp [ha]
      · intro p hp d' hd'
        rcases List.mem_append.mp hp with hp | hp
        · exact hdisj p hp d' (by simp [hd'])
        · simp only [List.mem_singleton] at hp
          subst hp
          intro hcontra
          exact hdn ⟨d', hd', hcontra.symm⟩
      · exact hnd'
    · rw [if_neg ha, ih acc (fun p hp d' hd' => hdisj p hp d' (by simp [hd'])) hnd']
      simp [ha]

/-- C8: a run of driver initialisation gives every attempted (declared and
environment-admitted) driver exactly one status entry under its name, `true`
on successful construction and `false` on an individually caught failure;
the resulting status map is pointwise independent of the other drivers'
outcomes, so one driver's failure never prevents the rest from being
attempted and recorded. -/
theorem initODB_status (isClient test : Bool) (outcome : String → Bool)
    (decls : List DriverDecl) (hnd : (decls.map DriverDecl.name).Nodup) :
    initODBrun isClient test outcome decls
      = (decls.filter (attemptedDrv isClient test)).map
          (fun d => (d.name, outcome d.name)) ∧
    ∀ d ∈ decls, attemptedDrv isClient test d = true →
      (d.name, outcome d.name) ∈ initODBrun isClient test outcome decls := by
  have he := initODB_foldl_eq isClient test outcome decls [] (by simp) hnd
  constructor
  · simpa [initODBrun] using he
  · intro d hd ha
    have : initODBrun isClient test outcome decls
        = (decls.filter (attemptedDrv isClient test)).map
            (fun d => (d.name, outcome d.name)) := by
      simpa [initODBrun] using he
    rw [this]
    exact List.mem_map_of_mem _ (List.mem_filter.mpr ⟨hd, ha⟩)

theorem validateFields_ok_iff (c : String) (d : Obj) (s : Schema) :
    validateFields c (some d) s = .ok () ↔ ∀ fr ∈ s, fieldOk d fr := by
  induction s with
  | nil => simp [validateFields]
  | cons fr rest ih =>
    obtain ⟨f, r⟩ := fr
    cases hg : assocGet d f with
    | none =>
      simp only [validateFields, hg, List.mem_cons]
      constructor
      · intro h
        exact absurd h (by simp)
      · intro h
        obtain ⟨v, hv, _⟩ := h (f, r) (Or.inl rfl)
        rw [hg] at hv
        exact absurd hv (by simp)
    | some v =>
      simp only [validateFields, hg, List.mem_cons]
      by_cases hv : r.validate v = true
      · rw [if_pos hv, ih]
        constructor
        · intro h fr hfr
          rcases hfr with hfr | hfr
          · subst hfr
            exact ⟨v, hg, hv⟩
          · exact h fr hfr
        · intro h fr hfr
          exact h fr (Or.inr hfr)
      · rw [if_neg hv]
        constructor
        · intro h
          exact absurd h (by simp)
        · intro h
          obtain ⟨v', hv', hval⟩ := h (f, r) (Or.inl rfl)
          rw [hg] at hv'
          injection hv' with hv'
          subst hv'
          exact absurd hval hv

theorem validateFields_append_of_ok (c : String) (d : Obj) (pre rest : Schema)
    (h : ∀ fr ∈ pre, fieldOk d fr) :
    validateFields c (some d) (pre ++ rest) = validateFields c (some d) rest := by
  induction pre with
  | nil => rfl
  | cons fr pre' ih =>
    obtain ⟨f, r⟩ := fr
    obtain ⟨v, hv, hval⟩ := h (f, r) (by simp)
    simp only [List.cons_append, validateFields, hv, hval, if_true]
    rw [if_pos hval]
    exact ih (fun fr hfr => h fr (by simp [hfr]))

theorem validateFields_congr (c : String) (d d2 : Obj) (s : Schema)
    (h : ∀ fr ∈ s, assocGet d fr.1 = assocGet d2 fr.1) :
    validateFields c (some d) s = validateFields c (some d2) s := by
  induction s with
  | nil => rfl
  | cons fr rest ih =>
    obtain ⟨f, r⟩ := fr
    have hf : assocGet d f = assocGet d2 f := h (f, r) (by simp)
    cases hg : assocGet d2 f with
    | none =>
      rw [hg] at hf
      simp [validateFields, hf, hg]
    | some v =>
      rw [hg] at hf
      simp only [validateFields, hf, hg]
      by_cases hv : r.validate v = true
      · rw [if_pos hv, if_pos hv, ih (fun fr hfr => h fr (by simp [hfr]))]
      · rw [if_neg hv, if_neg hv]

/-- C6: `validateData` is a no-op success when no schema is registered for
the collection; otherwise it succeeds exactly when every declared field is
present and passes its predicate, throws a missing-field error at the first
declared field (in declaration order) absent from the data, throws an error
carrying the configured message and the offending value at the first
predicate that rejects, and its verdict depends only on the values of the
declared fields — undeclared fields are never checked. -/
theorem validateData_behaviour (reg : String → Option Schema) (c : String)
    (d : Obj) :
    (reg c = none → validateData reg c (some d) = .ok ()) ∧
    (∀ s, reg c = some s →
      ((validateData reg c (some d) = .ok ()) ↔ ∀ fr ∈ s, fieldOk d fr) ∧
      (∀ pre f r rest, s = pre ++ (f, r) :: rest →
        (∀ fr ∈ pre, fieldOk d fr) → assocGet d f = none →
        validateData reg c (some d) = .error (.missingField f c)) ∧
      (∀ pre f r rest v, s = pre ++ (f, r) :: rest →
        (∀ fr ∈ pre, fieldOk d fr) → assocGet d f = some v →
        r.validate v = false →
        validateData reg c (some d) = .error (.predFailed r.message v)) ∧
      (∀ d2 : Obj, (∀ fr ∈ s, assocGet d fr.1 = assocGet d2 fr.1) →
        validateData reg c (some d) = validateData reg c (some d2))) := by
  constructor
  · intro h
    unfold validateData
    rw [h]
  · intro s hs
    have hval : validateData reg c (some d) = validateFields c (some d) s := by
      unfold validateData
      rw [hs]
    refine ⟨?_, ?_, ?_, ?_⟩
    · rw [hval]
      exact validateFields_ok_iff c d s
    · intro pre f r rest hsplit hpre hmiss
      rw [hval, hsplit, validateFields_append_of_ok c d pre _ hpre]
      simp [validateFields, hmiss]
    · intro pre f r rest v hsplit hpre hget hfail
      rw [hval, hsplit, validateFields_append_of_ok c d pre _ hpre]
      simp [validateFields, hget, hfail]
    · intro d2 hagree
      have hval2 : validateData reg c (some d2) = validateFields c (some d2) s := by
        unfold validateData
        rw [hs]
      rw [hval, hval2]
      exact validateFields_congr c d d2 s hagree

theorem watcherStepOut_calls (reg : String → Option Schema) (c : String)
    (upd : Except String Unit) (id : String) (cur : Obj) (backend : Option Obj) :
    ∀ call ∈ (watcherStepOut reg c upd id cur backend).calls,
      ∃ st, call = .updateC id st := by
  intro call hc
  unfold watcherStepOut at hc
  cases hv : validateData reg c (some cur) with
  | error e =>
    rw [hv] at hc
    simp at hc
  | ok u =>
    rw [hv] at hc
    cases upd with
    | error e =>
      simp at hc
      exact ⟨cur, hc⟩
    | ok u2 =>
      simp at hc
      exact ⟨cur, hc⟩

theorem watcherTrace_update_id (reg : String → Option Schema) (c : String)
    (id : String) (muts : List Mutation) :
    ∀ backend, ∀ call ∈ watcherTrace reg c id muts backend,
      ∃ st, call = .updateC id st := by
  induction muts with
  | nil =>
    intro backend call hc
    simp [watcherTrace] at hc
  | cons m rest ih =>
    intro backend call hc
    simp only [watcherTrace] at hc
    rcases List.mem_append.mp hc with hc | hc
    · exact watcherStepOut_calls reg c m.updResp id m.newState backend call hc
    · exact ih _ call hc

theorem assocGet_map_overwrite {α : Type} (k : String) (v : α) :
    ∀ o : List (String × α), o.any (fun p => p.1 = k) = true →
      assocGet (o.map (fun p => if p.1 = k then (k, v) else p)) k = some v := by
  intro o
  induction o with
  | nil => simp
  | cons p rest ih =>
    intro h
    simp only [List.any_cons, Bool.or_eq_true, decide_eq_true_eq] at h
    simp only [List.map_cons]
    by_cases hp : p.1 = k
    · rw [if_pos hp]
      simp [assocGet]
    · rw [if_neg hp]
      simp only [assocGet]
      rw [if_neg hp]
      apply ih
      rcases h with h | h
      · exact absurd h hp
      · simpa using h

theorem assocGet_append_new {α : Type} (k : String) (v : α) :
    ∀ o : List (String × α), (∀ p ∈ o, p.1 ≠ k) →
      assocGet (o ++ [(k, v)]) k = some v := by
  intro o
  induction o with
  | nil => simp [assocGet]
  | cons p rest ih =>
    intro h
    simp only [List.cons_append, assocGet]
    rw [if_neg (h p (by simp))]
    exact ih (fun q hq => h q (by simp [hq]))

theorem assocGet_assocSet_self {α : Type} (o : List (String × α)) (k : String)
    (v : α) : assocGet (assocSet o k v) k = some v := by
  unfold assocSet
  by_cases h : o.any (fun p => p.1 = k) = true
  · rw [if_pos h]
    exact assocGet_map_overwrite k v o h
  · rw [if_neg h]
    apply assocGet_append_new
    intro p hp hk
    exact h (List.any_eq_true.mpr ⟨p, hp, by simp [hk]⟩)

/-- C7: the document id a live object is bound to is the one captured at
binding time: every `driver.update` call any number of watcher invocations
issue carries exactly that id; and the fs driver's `update` preserves the
existing document's stored id rather than assigning a new one. -/
theorem odb_identity_stability (reg : String → Option Schema) (c : String)
    (boundId : String) (muts : List Mutation) (backend : Option Obj)
    (store : FsStore) (fileId : String) (sd : StateDocIn) (old : FsDoc)
    (hold : assocGet store fileId = some old) :
    (∀ call ∈ watcherTrace reg c boundId muts backend,
      ∃ st, call = .updateC boundId st) ∧
    (fsUpdate store fileId sd).2 = .updated
      { state_tree := sd.state_tree, state_json := sd.state_json, id := old.id } ∧
    assocGet (fsUpdate store fileId sd).1 fileId = some
      { state_tree := sd.state_tree, state_json := sd.state_json, id := old.id } := by
  refine ⟨fun call hc => watcherTrace_update_id reg c boundId muts backend call hc,
    ?_, ?_⟩
  · unfold fsUpdate
    rw [hold]
  · unfold fsUpdate
    rw [hold]
    exact assocGet_assocSet_self store fileId _

theorem strHasPre_self_append (p s : List Char) : strHasPre p (p ++ s) = true := by
  induction p with
  | nil => rfl
  | cons a p ih => simp [strHasPre, ih]

theorem stripSJ_transform_key (k : String) :
    stripSJ (String.mk (sjKeyHead ++ k.data)) = k := by
  unfold stripSJ
  rw [if_pos (strHasPre_self_append sjKeyHead k.data)]
  show String.mk ((sjKeyHead ++ k.data).drop 11) = k
  have h11 : (sjKeyHead ++ k.data).drop 11 = k.data := by
    have hl : sjKeyHead.length = 11 := rfl
    rw [← hl, List.drop_left]
  rw [h11]

theorem buildObj_foldl_eq (l : Obj) :
    ∀ acc : Obj, (∀ p ∈ acc, ∀ r ∈ l, p.1 ≠ r.1) → (l.map Prod.fst).Nodup →
      l.foldl (fun o p => assocSet o p.1 p.2) acc = acc ++ l := by
  induction l with
  | nil =>
    intro acc _ _
    simp
  | cons p rest ih =>
    intro acc hdisj hnd
    simp only [List.map_cons, List.nodup_cons, List.mem_map] at hnd
    obtain ⟨hpn, hnd'⟩ := hnd
    simp only [List.foldl_cons]
    rw [assocSet_of_key_new acc p.1 p.2 (fun r hr => hdisj r hr p (by simp)),
      ih (acc ++ [(p.1, p.2)]) ?_ hnd']
    · simp
    · intro r hr r' hr'
      rcases List.mem_append.mp hr with hr | hr
      · exact hdisj r hr r' (by simp [hr'])
      · simp only [List.mem_singleton] at hr
        subst hr
        intro hcontra
        exact hpn ⟨r', hr', hcontra.symm⟩

theorem buildObj_eq_self (l : Obj) (hnd : (l.map Prod.fst).Nodup) :
    buildObj l = l := by
  have h := buildObj_foldl_eq l [] (by simp) hnd
  simpa [buildObj] using h

/-- C9: for a generic field-equality query whose keys do not already start
with `state_json.`, running the fs driver's `query` on `transformQuery(q)`
is the same as matching `q` directly against each stored document's
`state_json` projection: the prefix added by the transform is stripped back
off, a document matches exactly when every key of `q` finds a strictly-equal
value in its `state_json`, and the first matching document in listing order
is returned. -/
theorem fs_query_transform_equiv (docs : List FsDoc) (q : Obj)
    (hnd : (q.map Prod.fst).Nodup)
    (_hpre : ∀ kv ∈ q, strHasPre sjKeyHead kv.1.data = false) :
    fsQuery docs (fsTransformQuery q)
      = (docs.find? (fsDocMatches q)).map (fun d => (d.state_tree, d.id)) := by
  unfold fsQuery
  have hmap : (fsTransformQuery q).map (fun kv => (stripSJ kv.1, kv.2)) = q := by
    unfold fsTransformQuery
    rw [List.map_map]
    have hfun : ((fun kv : String × JVal => (stripSJ kv.1, kv.2)) ∘
        (fun kv : String × JVal => (String.mk (sjKeyHead ++ kv.1.data), kv.2)))
        = fun kv : String × JVal => kv := by
      funext kv
      simp [Function.comp, stripSJ_transform_key]
    rw [hfun]
    simp
  rw [hmap, buildObj_eq_self q hnd]

/-! ## Concrete instances used by the witnesses -/

/-- The `requiredField` rule of the test suite: value must be a string. -/
def ruleEx : FieldRule :=
  { validate := fun v => match v with | .str _ => true | _ => false,
    message := "Field must be a string." }

def schemaEx : Schema := [("requiredField", ruleEx)]

/-- A validator registry with one registered collection. -/
def regEx : String → Option Schema :=
  fun c => if c = "testFail" then some schemaEx else none

/-- A validator registry with no registered collection. -/
def regNone : String → Option Schema := fun _ => none

/-- A driver whose `create` and `query` both resolve to a falsy value. -/
def drvEx : DriverSpec :=
  { hasTransform := false, transform := id, createResp := .falsy,
    queryResp := .falsy }

/-- A driver whose `create` resolves to a document missing both
`state_tree` and `id`. -/
def drvBad : DriverSpec :=
  { hasTransform := false, transform := id, createResp := .doc none none,
    queryResp := .falsy }

def drvRem : RemoveDriver :=
  { hasTransform := false, transform := id,
    queryResp := .ok (.doc none (some "id1")), removeResp := .ok true }

def regRem : String → Option RemoveDriver :=
  fun n => if n = "fs" then some drvRem else none

/-- The declared `driversList` of src/odb.js. -/
def declsEx : List DriverDecl :=
  [{ name := "mongodb", env := .server }, { name := "fs", env := .server },
   { name := "indexeddb", env := .client }]

/-- A construction oracle under which only the mongodb driver fails. -/
def outcomeEx : String → Bool := fun n => !(n == "mongodb")

def docEx : FsDoc :=
  { state_tree := .str "tree", state_json := some [("name", .str "bob")],
    id := "docid1" }

def storeEx : FsStore := [("f1", docEx)]

def sdEx : StateDocIn :=
  { state_tree := .str "tree2", state_json := some [("name", .str "sue")] }

def qEx : Obj := [("name", .str "bob")]

theorem odb_validate_before_driver_witness :
    ODBrun drvEx regEx "testFail" [] (some [("requiredField", .num 123)])
      = (.ok .fals, []) :=
  odb_validate_before_driver drvEx regEx "testFail" []
    (some [("requiredField", .num 123)])
    (.predFailed "Field must be a string." (.num 123)) rfl

theorem odb_null_value_schema_lookup_false_witness :
    ODBrun drvEx regEx "testFail" [("a", .num 1)] none = (.ok .fals, []) :=
  odb_null_value_schema_lookup_false drvEx regEx "testFail" [("a", .num 1)]
    "requiredField" ruleEx [] rfl

theorem odb_create_lookup_branching_witness :
    (ODBrun drvEx regNone "users" [] none).2 = [.createC none] ∧
    ODBrun drvEx regNone "users" [("a", .num 1)] none
      = (.ok .fals, [.queryC [("a", .num 1)]]) :=
  ⟨(odb_create_lookup_branching drvEx regNone "users" [] none rfl).1 rfl,
   (odb_create_lookup_branching drvEx regNone "users" [("a", .num 1)] none
      rfl).2.1 rfl rfl rfl⟩

theorem odb_malformed_doc_throws_witness :
    ∃ msg, (ODBrun drvBad regNone "users" [] none).1 = .error (.malformed msg) :=
  odb_malformed_doc_throws drvBad regNone "users" [] none (.doc none none)
    [.createC none] rfl rfl rfl

theorem odb_watcher_step_behaviour_witness :
    watcherStep regNone "c" (.ok ()) "d1" [("a", .num 1)] none
      = .ok { calls := [.updateC "d1" [("a", .num 1)]],
              backend := some [("a", .num 1)],
              live := [("a", .num 1)], logged := false } :=
  (odb_watcher_step_behaviour regNone "c" (.ok ()) "d1" [("a", .num 1)] none).1 rfl

theorem odb_remove_behaviour_witness :
    ODBremove regRem "fs" [] = (.ret true, [.queryC [], .removeC (some "id1")]) :=
  (odb_remove_behaviour regRem "fs" [] drvRem rfl).2.2.2.1
    (.doc none (some "id1")) true rfl rfl rfl

theorem initODB_status_witness :
    initODBrun false false outcomeEx declsEx
      = (declsEx.filter (attemptedDrv false false)).map
          (fun d => (d.name, outcomeEx d.name)) :=
  (initODB_status false false outcomeEx declsEx (by decide)).1

theorem validateData_behaviour_witness :
    validateData regEx "testFail" (some [])
      = .error (.missingField "requiredField" "testFail") :=
  ((validateData_behaviour regEx "testFail" []).2 schemaEx rfl).2.1 []
    "requiredField" ruleEx [] rfl (by simp) rfl

theorem odb_identity_stability_witness :
    (fsUpdate storeEx "f1" sdEx).2 = .updated
      { state_tree := sdEx.state_tree, state_json := sdEx.state_json,
        id := "docid1" } ∧
    assocGet (fsUpdate storeEx "f1" sdEx).1 "f1" = some
      { state_tree := sdEx.state_tree, state_json := sdEx.state_json,
        id := "docid1" } :=
  (odb_identity_stability regNone "c" "d1" [] none storeEx "f1" sdEx docEx
    rfl).2

theorem fs_query_transform_equiv_witness :
    fsQuery [docEx] (fsTransformQuery qEx)
      = ([docEx].find? (fsDocMatches qEx)).map (fun d => (d.state_tree, d.id)) :=
  fs_query_transform_equiv [docEx] qEx (by decide) (by decide)

end DestamDB
